import Mathlib

/-!
Shallow embedding of the allocation-tracking engine in
`src/memapi/src/memorytracking.rs` (the fil memory profiler).

Rust `usize` values (sizes, addresses, totals) are modelled as `Nat`;
`u32` fields record the explicit `% 2^32` truncation where the Rust code
performs an `as u32` cast.  Hash maps (`HashMap`, the interner's table)
are modelled as association lists whose key multiset matches the map's;
iteration order of a Rust `HashMap` is unspecified, so list order is
never relied upon except as "some enumeration of the entries".
The `im::Vector<usize>` per-stack totals are plain `List Nat`.
-/

namespace MemoryTracking

/-- `const MIB: usize = 1024 * 1024;` -/
def MIB : Nat := 1024 * 1024

/-- `const HIGH_32BIT: u32 = 1 << 31;` -/
def HIGH_32BIT : Nat := 1 <<< 31

/-- A function location, modelled by the strings the host-owned
`FunctionLocation` record points at (`filename`, `function_name`).
Pointer identity in Rust is modelled as structural equality of the
record. -/
structure FunctionId where
  filename : String
  function_name : String
deriving DecidableEq, Repr

/-- A specific location: file + function + line number (`CallSiteId`). -/
structure CallSiteId where
  function : FunctionId
  /-- Line number within the file, 1-indexed (`u16` in Rust). -/
  line_number : Nat
deriving DecidableEq, Repr

/-- The current Python callstack: sequence of call sites, top of stack
last (`Callstack { calls: Vec<CallSiteId> }`). -/
structure Callstack where
  calls : List CallSiteId
deriving DecidableEq, Repr

/-- `Callstack::new()` -/
def Callstack.new : Callstack := { calls := [] }

/-- `Callstack::start_call`: if `parent_line_number != 0` and the stack
is non-empty, overwrite the top entry's line number with
`parent_line_number`; then push `callsite_id`. -/
def Callstack.start_call (cs : Callstack) (parent_line_number : Nat)
    (callsite_id : CallSiteId) : Callstack :=
  let calls :=
    if parent_line_number ≠ 0 then
      match cs.calls.getLast? with
      | some call =>
          cs.calls.dropLast ++ [{ call with line_number := parent_line_number }]
      | none => cs.calls
    else cs.calls
  { calls := calls ++ [callsite_id] }

/-- `Callstack::finish_call`: pop one entry (no-op on empty). -/
def Callstack.finish_call (cs : Callstack) : Callstack :=
  { calls := cs.calls.dropLast }

/-- `Callstack::new_line_number`: set the top entry's line number
(no-op on empty). -/
def Callstack.new_line_number (cs : Callstack) (line_number : Nat) : Callstack :=
  match cs.calls.getLast? with
  | some call =>
      { calls := cs.calls.dropLast ++ [{ call with line_number := line_number }] }
  | none => cs

/-- One rendered frame of `Callstack::as_string`: the Rust
`format!("{filename}:{line} ({function})")`, with the
`;TB@@{filename}:{line}@@TB` sentinel appended in post-processable
mode. -/
def renderFrame (to_be_post_processed : Bool) (id : CallSiteId) : String :=
  if to_be_post_processed then
    id.function.filename ++ ":" ++ toString id.line_number ++ " (" ++
      id.function.function_name ++ ");TB@@" ++ id.function.filename ++ ":" ++
      toString id.line_number ++ "@@TB"
  else
    id.function.filename ++ ":" ++ toString id.line_number ++ " (" ++
      id.function.function_name ++ ")"

/-- `Callstack::as_string`: `"[No Python stack]"` when empty, otherwise
the frames rendered and joined by `";"`. -/
def Callstack.as_string (cs : Callstack) (to_be_post_processed : Bool) : String :=
  if cs.calls.isEmpty then
    "[No Python stack]"
  else
    String.intercalate ";" (cs.calls.map (renderFrame to_be_post_processed))

/-- A specific call to malloc()/calloc() (`struct Allocation`).  If the
high bit of `compressed_size` is set the value is MiBs, otherwise
bytes. -/
structure Allocation where
  callstack_id : Nat
  compressed_size : Nat
deriving DecidableEq, Repr

/-- `Allocation::new`: sizes of at least `HIGH_32BIT` bytes are stored
as a rounding division by `MIB` (cast `as u32`, hence `% 2^32`) with
the high bit or-ed in; smaller sizes are stored directly. -/
def Allocation.new (callstack_id : Nat) (size : Nat) : Allocation :=
  let compressed_size :=
    if size ≥ HIGH_32BIT then
      (((size + MIB / 2) / MIB) % 2 ^ 32) ||| HIGH_32BIT
    else
      size % 2 ^ 32
  { callstack_id := callstack_id, compressed_size := compressed_size }

/-- `Allocation::size`: decode `compressed_size` back to bytes. -/
def Allocation.size (a : Allocation) : Nat :=
  if a.compressed_size ≥ HIGH_32BIT then
    (a.compressed_size - HIGH_32BIT) * MIB
  else
    a.compressed_size

/-- `HashMap::insert` on an association list: replace the existing
entry for the key, or add one. -/
def insertAssoc {α : Type} (l : List (Nat × α)) (k : Nat) (v : α) : List (Nat × α) :=
  match l with
  | [] => [(k, v)]
  | (k', v') :: rest =>
      if k' = k then (k, v) :: rest else (k', v') :: insertAssoc rest k v

/-- `HashMap::get` on an association list. -/
def lookupAssoc {α : Type} (l : List (Nat × α)) (k : Nat) : Option α :=
  match l with
  | [] => none
  | (k', v') :: rest => if k' = k then some v' else lookupAssoc rest k

/-- `HashMap::remove` on an association list: drop the key's entry and
return it together with the remaining entries. -/
def removeAssoc {α : Type} (l : List (Nat × α)) (k : Nat) :
    Option α × List (Nat × α) :=
  match l with
  | [] => (none, [])
  | (k', v') :: rest =>
      if k' = k then (some v', rest)
      else
        let r := removeAssoc rest k
        (r.1, (k', v') :: r.2)

/-- `CallstackInterner`: maps callstacks to dense integer identifiers. -/
structure CallstackInterner where
  max_id : Nat
  callstack_to_id : List (Callstack × Nat)
deriving DecidableEq, Repr

/-- `CallstackInterner::new()` -/
def CallstackInterner.new : CallstackInterner :=
  { max_id := 0, callstack_to_id := [] }

/-- `HashMap::get` keyed by `Callstack`. -/
def findCallstackId (l : List (Callstack × Nat)) (cs : Callstack) : Option Nat :=
  match l with
  | [] => none
  | (cs', id) :: rest => if cs' = cs then some id else findCallstackId rest cs

/-- `CallstackInterner::get_or_insert_id`: return the existing id for
the callstack or assign `max_id` and bump it.  The Rust version invokes
a `call_on_new` closure exactly when the id is new; here the returned
`Bool` reports that condition and the caller performs the closure's
effect. -/
def CallstackInterner.get_or_insert_id (i : CallstackInterner)
    (callstack : Callstack) : Nat × CallstackInterner × Bool :=
  match findCallstackId i.callstack_to_id callstack with
  | some result => (result, i, false)
  | none =>
      (i.max_id,
       { max_id := i.max_id + 1,
         callstack_to_id := i.callstack_to_id ++ [(callstack, i.max_id)] },
       true)

/-- `CallstackInterner::get_reverse_map`, as a lookup: the callstack
carrying the given id (ids are never duplicated in the table). -/
def CallstackInterner.reverse_lookup (i : CallstackInterner) (id : Nat) :
    Option Callstack :=
  (i.callstack_to_id.find? (fun p => p.2 == id)).map Prod.fst

/-- Modelled from the spec: `src/memapi/src/rangemap.rs` is referenced
by the tracker (`use super::rangemap::RangeMap`) but is not under
`src/`; spec §4.1 fixes its contract.  A `RangeMap` stores
non-overlapping ranges `[addr, addr+len) → value` as `(addr, len,
value)` triples. -/
structure RangeMap where
  ranges : List (Nat × Nat × Nat)
deriving DecidableEq, Repr

/-- `RangeMap::new()` (modelled from the spec). -/
def RangeMap.new : RangeMap := { ranges := [] }

/-- Modelled from the spec: `add(addr, len, v)` inserts the range; the
caller guarantees no overlap with existing ranges. -/
def RangeMap.add (m : RangeMap) (addr len v : Nat) : RangeMap :=
  { ranges := m.ranges ++ [(addr, len, v)] }

/-- Modelled from the spec: the effect of `remove(addr, len)` on one
stored range — delete the intersection with `[addr, addr+len)`,
yielding `(value, bytes removed)` if non-empty and 0, 1 or 2 residual
pieces that keep the original value. -/
def removeFromRange (addr len : Nat) (r : Nat × Nat × Nat) :
    Option (Nat × Nat) × List (Nat × Nat × Nat) :=
  let s := r.1
  let sl := r.2.1
  let v := r.2.2
  let lo := max addr s
  let hi := min (addr + len) (s + sl)
  if lo < hi then
    (some (v, hi - lo),
     (if s < lo then [(s, lo - s, v)] else []) ++
       (if hi < s + sl then [(hi, s + sl - hi, v)] else []))
  else
    (none, [r])

/-- Modelled from the spec: `remove(addr, len)` applied to every stored
range; returns the `(value, removed_bytes)` pairs and the residual
map. -/
def RangeMap.remove (m : RangeMap) (addr len : Nat) :
    List (Nat × Nat) × RangeMap :=
  let pieces := m.ranges.map (removeFromRange addr len)
  (pieces.filterMap Prod.fst, { ranges := (pieces.map Prod.snd).flatten })

/-- Modelled from the spec: `total_size()` — sum of range lengths. -/
def RangeMap.size (m : RangeMap) : Nat :=
  (m.ranges.map (fun r => r.2.1)).sum

/-- `struct AllocationTracker`: the main data structure tracking
everything. -/
structure AllocationTracker where
  current_allocations : List (Nat × Allocation)
  current_anon_mmaps : RangeMap
  interner : CallstackInterner
  current_memory_usage : List Nat
  peak_memory_usage : List Nat
  current_allocated_bytes : Nat
  peak_allocated_bytes : Nat
  /-- `spare_memory: Vec<u8>` is created with reserved capacity but
  length 0, so its contents are the empty sequence. -/
  spare_memory : List Nat
  default_path : String
deriving DecidableEq, Repr

/-- `AllocationTracker::new(default_path)` -/
def AllocationTracker.new (default_path : String) : AllocationTracker :=
  { current_allocations := []
    current_anon_mmaps := RangeMap.new
    interner := CallstackInterner.new
    current_memory_usage := []
    peak_memory_usage := []
    current_allocated_bytes := 0
    peak_allocated_bytes := 0
    spare_memory := []
    default_path := default_path }

/-- `AllocationTracker::check_if_new_peak`: if `current_allocated_bytes
> peak_allocated_bytes`, copy the current totals into the peak
fields. -/
def AllocationTracker.check_if_new_peak (t : AllocationTracker) : AllocationTracker :=
  if t.current_allocated_bytes > t.peak_allocated_bytes then
    { t with peak_allocated_bytes := t.current_allocated_bytes,
             peak_memory_usage := t.current_memory_usage }
  else t

/-- `AllocationTracker::add_memory_usage`.  The Rust indexing
`current_memory_usage[index] += bytes` panics out of bounds; the index
is in bounds in every reachable state, and the model's `List.set` makes
the out-of-bounds case a no-op. -/
def AllocationTracker.add_memory_usage (t : AllocationTracker)
    (callstack_id bytes : Nat) : AllocationTracker :=
  { t with
    current_allocated_bytes := t.current_allocated_bytes + bytes,
    current_memory_usage := t.current_memory_usage.set callstack_id
      (t.current_memory_usage.getD callstack_id 0 + bytes) }

/-- `AllocationTracker::remove_memory_usage`.  Rust `usize` subtraction
panics on underflow (debug); reachable states never underflow because
each subtraction removes a previously added amount, and the model's
`Nat` subtraction truncates at 0. -/
def AllocationTracker.remove_memory_usage (t : AllocationTracker)
    (callstack_id bytes : Nat) : AllocationTracker :=
  { t with
    current_allocated_bytes := t.current_allocated_bytes - bytes,
    current_memory_usage := t.current_memory_usage.set callstack_id
      (t.current_memory_usage.getD callstack_id 0 - bytes) }

/-- `AllocationTracker::get_callstack_id`: intern the callstack; when
the id is new the `call_on_new` closure pushes a 0 onto
`current_memory_usage`. -/
def AllocationTracker.get_callstack_id (t : AllocationTracker)
    (callstack : Callstack) : Nat × AllocationTracker :=
  let r := t.interner.get_or_insert_id callstack
  if r.2.2 then
    (r.1, { t with interner := r.2.1,
                   current_memory_usage := t.current_memory_usage ++ [0] })
  else
    (r.1, { t with interner := r.2.1 })

/-- `AllocationTracker::add_allocation`: intern the stack, build the
(compressed) allocation record, insert it by address, and add the
*decoded* size to the totals. -/
def AllocationTracker.add_allocation (t : AllocationTracker)
    (address size : Nat) (callstack : Callstack) : AllocationTracker :=
  let r := t.get_callstack_id callstack
  let callstack_id := r.1
  let t1 := r.2
  let alloc := Allocation.new callstack_id size
  let compressed_size := alloc.size
  let t2 := { t1 with
    current_allocations := insertAssoc t1.current_allocations address alloc }
  t2.add_memory_usage callstack_id compressed_size

/-- `AllocationTracker::free_allocation`: run the peak check, then
remove the address's record if present and subtract its decoded size
from the totals; a missing address leaves everything (past the peak
check) untouched. -/
def AllocationTracker.free_allocation (t : AllocationTracker)
    (address : Nat) : AllocationTracker :=
  let t1 := t.check_if_new_peak
  let r := removeAssoc t1.current_allocations address
  match r.1 with
  | some removed =>
      ({ t1 with current_allocations := r.2 }).remove_memory_usage
        removed.callstack_id removed.size
  | none => t1

/-- `AllocationTracker::add_anon_mmap`: intern the stack, add the range
and add the (uncompressed) size to the totals. -/
def AllocationTracker.add_anon_mmap (t : AllocationTracker)
    (address size : Nat) (callstack : Callstack) : AllocationTracker :=
  let r := t.get_callstack_id callstack
  let callstack_id := r.1
  let t1 := r.2
  let t2 := { t1 with
    current_anon_mmaps := t1.current_anon_mmaps.add address size callstack_id }
  t2.add_memory_usage callstack_id size

/-- `AllocationTracker::free_anon_mmap`: run the peak check, then
subtract every removed `(callstack_id, bytes)` piece from the
totals. -/
def AllocationTracker.free_anon_mmap (t : AllocationTracker)
    (address size : Nat) : AllocationTracker :=
  let t1 := t.check_if_new_peak
  let r := t1.current_anon_mmaps.remove address size
  r.1.foldl (fun acc p => acc.remove_memory_usage p.1 p.2)
    { t1 with current_anon_mmaps := r.2 }

/-- `by_call.entry(k).or_insert(0); *entry += v` on an association
list. -/
def bumpEntry (l : List (Nat × Nat)) (k v : Nat) : List (Nat × Nat) :=
  match l with
  | [] => [(k, v)]
  | (k', v') :: rest =>
      if k' = k then (k', v' + v) :: rest else (k', v') :: bumpEntry rest k v

/-- `AllocationTracker::combine_callstacks`: run the peak check, then
build the per-callstack totals — from the peak vector when `peak`,
otherwise from the live malloc table (decoded sizes) and the live mmap
ranges.  Returns the updated tracker together with the `(id, bytes)`
pairs (the Rust iterator's contents; `HashMap` order is unspecified). -/
def AllocationTracker.combine_callstacks (t : AllocationTracker) (peak : Bool) :
    AllocationTracker × List (Nat × Nat) :=
  let t1 := t.check_if_new_peak
  let by_call :=
    if peak then
      (List.range t1.peak_memory_usage.length).foldl
        (fun acc i =>
          let size := t1.peak_memory_usage.getD i 0
          if size > 0 then insertAssoc acc i size else acc) []
    else
      let acc1 := t1.current_allocations.foldl
        (fun acc p => bumpEntry acc p.2.callstack_id p.2.size) []
      t1.current_anon_mmaps.ranges.foldl
        (fun acc r => bumpEntry acc r.2.2 r.2.1) acc1
  (t1, by_call)

/-- Map a fallible function over a list, failing as a whole when any
element fails (the shape of a Rust iterator whose body can panic on
`unwrap`). -/
def optionMapList {α β : Type} (f : α → Option β) : List α → Option (List β)
  | [] => some []
  | x :: xs =>
      match f x, optionMapList f xs with
      | some y, some ys => some (y :: ys)
      | _, _ => none

/-- `AllocationTracker::to_lines`: one `"<stack> <bytes>"` line per
`(id, bytes)` pair from `combine_callstacks`, where the stack string is
the interned callstack rendered by `as_string`.  The Rust
`.get(&callstack_id).unwrap()` panic is modelled as `none`. -/
def AllocationTracker.to_lines (t : AllocationTracker)
    (peak to_be_post_processed : Bool) :
    AllocationTracker × Option (List String) :=
  let r := t.combine_callstacks peak
  (r.1, optionMapList (fun p =>
    (r.1.interner.reverse_lookup p.1).map
      (fun cs => cs.as_string to_be_post_processed ++ " " ++ toString p.2)) r.2)

/-- The lock-protected tracker operations (spec §4.6/§4.7): the
mutating entry points plus report production. -/
inductive TrackerOp where
  | addAlloc (address size : Nat) (callstack : Callstack)
  | freeAlloc (address : Nat)
  | addAnonMmap (address size : Nat) (callstack : Callstack)
  | freeAnonMmap (address size : Nat)
  | combineCallstacks (peak : Bool)
deriving DecidableEq, Repr

/-- Apply one lock-protected operation to the tracker. -/
def TrackerOp.apply (t : AllocationTracker) : TrackerOp → AllocationTracker
  | .addAlloc a s cs => t.add_allocation a s cs
  | .freeAlloc a => t.free_allocation a
  | .addAnonMmap a s cs => t.add_anon_mmap a s cs
  | .freeAnonMmap a s => t.free_anon_mmap a s
  | .combineCallstacks p => (t.combine_callstacks p).1

/-- Run a trace of operations from a starting state. -/
def runOps (t : AllocationTracker) : List TrackerOp → AllocationTracker
  | [] => t
  | op :: ops => runOps (op.apply t) ops

/-- The values `current_allocated_bytes` attains along a trace
(including the starting state). -/
def totalsHistory (t : AllocationTracker) : List TrackerOp → List Nat
  | [] => [t.current_allocated_bytes]
  | op :: ops => t.current_allocated_bytes :: totalsHistory (op.apply t) ops

/-- Interner well-formedness: `max_id` is the length of
`current_memory_usage` and every interned id indexes into it (so the
Rust vector indexing in `add/remove_memory_usage` is in bounds). -/
def InternerWF (t : AllocationTracker) : Prop :=
  t.interner.max_id = t.current_memory_usage.length ∧
  ∀ p ∈ t.interner.callstack_to_id, p.2 < t.current_memory_usage.length

/-! ### Theorems -/

/-- Or-ing the high tag bit into a value below `2^31` is the same as
adding it. -/
theorem lor_high_bit (m : Nat) (h : m < 2 ^ 31) : m ||| 2 ^ 31 = m + 2 ^ 31 := by
  apply Nat.eq_of_testBit_eq
  intro i
  rw [Nat.testBit_or]
  rcases lt_trichotomy i 31 with hi | hi | hi
  · rw [Nat.add_comm m, Nat.testBit_two_pow_add_gt hi]
    simp [Nat.testBit_two_pow_of_ne (Nat.ne_of_gt hi)]
  · subst hi
    rw [Nat.add_comm m, Nat.testBit_two_pow_add_eq, Nat.testBit_lt_two_pow h,
      Nat.testBit_two_pow]
    decide
  · have h1 : m + 2 ^ 31 < 2 ^ i := by
      have : (2 : Nat) ^ 32 ≤ 2 ^ i := Nat.pow_le_pow_right (by norm_num) hi
      omega
    have h2 : m < 2 ^ i := by
      have : (2 : Nat) ^ 31 ≤ 2 ^ i :=
        Nat.pow_le_pow_right (by norm_num) (Nat.le_of_lt hi)
      omega
    rw [Nat.testBit_lt_two_pow h1, Nat.testBit_lt_two_pow h2,
      Nat.testBit_two_pow_of_ne (Nat.ne_of_lt hi)]
    decide

/-- C4: For every size strictly below `2^31` bytes, the size codec
round-trips exactly: decoding the encoded (compressed) size returns the
original size. -/
theorem size_codec_roundtrip_small (cid size : Nat) (h : size < 2 ^ 31) :
    (Allocation.new cid size).size = size := by
  unfold Allocation.new Allocation.size HIGH_32BIT
  have h31 : (1 <<< 31 : Nat) = 2 ^ 31 := by decide
  simp only [h31]
  have hlt : ¬ size ≥ 2 ^ 31 := by omega
  simp only [hlt, if_false]
  have hmod : size % 2 ^ 32 = size := Nat.mod_eq_of_lt (by omega)
  simp only [hmod]
  split
  · omega
  · rfl

/-- C4 witness at a concrete input. -/
theorem size_codec_roundtrip_small_witness :
    (3 : Nat) < 2 ^ 31 ∧ (Allocation.new 0 3).size = 3 :=
  ⟨by decide, size_codec_roundtrip_small 0 3 (by decide)⟩

/-- C5: For every size in `[2^31, 2^50]` bytes, the codec's absolute
error is bounded by `2^19`: encoding is round-to-nearest division by
`2^20` with the high bit set, and decoding multiplies back. -/
theorem size_codec_error_large (cid size : Nat) (h1 : 2 ^ 31 ≤ size)
    (h2 : size ≤ 2 ^ 50) :
    |((Allocation.new cid size).size : Int) - (size : Int)| ≤ 2 ^ 19 := by
  have hMIB : MIB = 1048576 := rfl
  have h31 : HIGH_32BIT = 2 ^ 31 := by decide
  have hq : (size + MIB / 2) / MIB < 2 ^ 31 := by
    rw [hMIB]
    omega
  have hcs : (Allocation.new cid size).compressed_size =
      (size + MIB / 2) / MIB + 2 ^ 31 := by
    show (if size ≥ HIGH_32BIT then (((size + MIB / 2) / MIB) % 2 ^ 32) ||| HIGH_32BIT
          else size % 2 ^ 32) = _
    rw [h31, if_pos (show size ≥ 2 ^ 31 from h1),
      Nat.mod_eq_of_lt (by omega), lor_high_bit _ hq]
  have hsize : (Allocation.new cid size).size = (size + MIB / 2) / MIB * MIB := by
    show (if (Allocation.new cid size).compressed_size ≥ HIGH_32BIT then
            ((Allocation.new cid size).compressed_size - HIGH_32BIT) * MIB
          else (Allocation.new cid size).compressed_size) = _
    rw [hcs, h31]
    rw [if_pos (Nat.le_add_left (2 ^ 31) ((size + MIB / 2) / MIB))]
    rw [Nat.add_sub_cancel]
  rw [hsize, abs_le, hMIB]
  constructor <;> omega

/-- C5 witness at a concrete input (3 GiB). -/
theorem size_codec_error_large_witness :
    2 ^ 31 ≤ 3 * 2 ^ 30 ∧ 3 * 2 ^ 30 ≤ 2 ^ 50 ∧
    |((Allocation.new 0 (3 * 2 ^ 30)).size : Int) - ((3 * 2 ^ 30 : Nat) : Int)| ≤ 2 ^ 19 :=
  ⟨by norm_num, by norm_num, size_codec_error_large 0 (3 * 2 ^ 30) (by norm_num) (by norm_num)⟩

/-- C10: the codec's error bound does not extend beyond `2^50` bytes:
at `2^51` the rounded MiB count equals `2^31`, collides with the high
tag bit and decodes to `0`, so the error exceeds `2^19`; and for every
size of at least `2^52` bytes the MiB count no longer fits in a `u32`,
so the `as u32` cast truncates. -/
theorem size_codec_breaks_beyond_2_pow_50 :
    (Allocation.new 0 (2 ^ 51)).size = 0 ∧
    2 ^ 19 < (2 ^ 51 : Nat) - (Allocation.new 0 (2 ^ 51)).size ∧
    ∀ size : Nat, 2 ^ 52 ≤ size →
      ((2 ^ 51 + MIB / 2) / MIB ≤ 2 ^ 32 ∧ 2 ^ 32 ≤ (size + MIB / 2) / MIB ∧
        (size + MIB / 2) / MIB % 2 ^ 32 < (size + MIB / 2) / MIB) := by
  refine ⟨by decide, by decide, ?_⟩
  intro size h
  unfold MIB
  refine ⟨by omega, by omega, ?_⟩
  have : 2 ^ 32 ≤ (size + 1048576 / 2) / 1048576 := by omega
  have hm : (size + 1048576 / 2) / 1048576 % 2 ^ 32 < 2 ^ 32 :=
    Nat.mod_lt _ (by norm_num)
  omega

/-- C10 witness at a concrete input. -/
theorem size_codec_breaks_beyond_2_pow_50_witness :
    (2 : Nat) ^ 52 ≤ 2 ^ 52 ∧ 2 ^ 32 ≤ (2 ^ 52 + MIB / 2) / MIB :=
  ⟨Nat.le_refl _, (size_codec_breaks_beyond_2_pow_50.2.2 (2 ^ 52) (Nat.le_refl _)).2.1⟩

/-! ### Helper lemmas about the association lists and the operations -/

theorem lookupAssoc_none_removeAssoc {α : Type} (l : List (Nat × α)) (k : Nat)
    (h : lookupAssoc l k = none) : removeAssoc l k = (none, l) := by
  induction l with
  | nil => rfl
  | cons hd tl ih =>
      unfold lookupAssoc at h
      unfold removeAssoc
      by_cases hk : hd.1 = k
      · simp [hk] at h
      · simp only [if_neg hk] at h ⊢
        rw [ih h]

theorem removeAssoc_insertAssoc_fst {α : Type} (l : List (Nat × α)) (k : Nat)
    (v : α) : (removeAssoc (insertAssoc l k v) k).1 = some v := by
  induction l with
  | nil => simp [insertAssoc, removeAssoc]
  | cons hd tl ih =>
      unfold insertAssoc
      by_cases hk : hd.1 = k
      · rw [if_pos hk]
        unfold removeAssoc
        simp
      · rw [if_neg hk]
        unfold removeAssoc
        rw [if_neg hk]
        exact ih

theorem set_getD_self (l : List Nat) (i : Nat) : l.set i (l.getD i 0) = l := by
  induction l generalizing i with
  | nil => rfl
  | cons hd tl ih =>
      cases i with
      | zero => rfl
      | succ n => simpa [List.set, List.getD] using ih n

theorem getD_set_add_sub (l : List Nat) (i d : Nat) :
    (l.set i (l.getD i 0 + d)).set i
      ((l.set i (l.getD i 0 + d)).getD i 0 - d) = l := by
  by_cases h : i < l.length
  · have hv : (l.set i (l.getD i 0 + d)).getD i 0 = l.getD i 0 + d := by
      simp [List.getD, List.getElem?_set_self', h]
    rw [hv, Nat.add_sub_cancel, List.set_set, set_getD_self]
  · have hlen : l.length ≤ i := Nat.le_of_not_lt h
    rw [List.set_eq_of_length_le hlen, List.set_eq_of_length_le hlen]

/-- `check_if_new_peak` leaves every non-peak field unchanged and sets
`peak_allocated_bytes` to the max of the two totals. -/
theorem check_if_new_peak_fields (t : AllocationTracker) :
    (t.check_if_new_peak).current_allocations = t.current_allocations ∧
    (t.check_if_new_peak).current_anon_mmaps = t.current_anon_mmaps ∧
    (t.check_if_new_peak).interner = t.interner ∧
    (t.check_if_new_peak).current_memory_usage = t.current_memory_usage ∧
    (t.check_if_new_peak).current_allocated_bytes = t.current_allocated_bytes ∧
    (t.check_if_new_peak).peak_allocated_bytes =
      max t.peak_allocated_bytes t.current_allocated_bytes := by
  unfold AllocationTracker.check_if_new_peak
  by_cases h : t.current_allocated_bytes > t.peak_allocated_bytes
  · simp [h, Nat.max_eq_right (Nat.le_of_lt h)]
  · simp [h, Nat.max_eq_left (Nat.le_of_not_lt h)]

/-- `get_callstack_id` either finds the stack (returning the tracker
unchanged) or assigns `max_id`, appends the table entry and pushes a 0
onto `current_memory_usage`. -/
theorem get_callstack_id_spec (t : AllocationTracker) (cs : Callstack) :
    (∃ id, findCallstackId t.interner.callstack_to_id cs = some id ∧
        t.get_callstack_id cs = (id, t)) ∨
    (findCallstackId t.interner.callstack_to_id cs = none ∧
      t.get_callstack_id cs =
        (t.interner.max_id,
         { t with
           interner :=
             { max_id := t.interner.max_id + 1,
               callstack_to_id :=
                 t.interner.callstack_to_id ++ [(cs, t.interner.max_id)] },
           current_memory_usage := t.current_memory_usage ++ [0] })) := by
  cases h : findCallstackId t.interner.callstack_to_id cs with
  | some id =>
      left
      refine ⟨id, rfl, ?_⟩
      unfold AllocationTracker.get_callstack_id CallstackInterner.get_or_insert_id
      rw [h]
      rfl
  | none =>
      right
      refine ⟨rfl, ?_⟩
      unfold AllocationTracker.get_callstack_id CallstackInterner.get_or_insert_id
      rw [h]
      rfl

/-- C6: `start_call(parent_line, site)` with `parent_line ≠ 0` on a
non-empty stack overwrites the top entry's line number with
`parent_line` and then pushes `site`; consequently, from the empty
stack, `start_call(0,S1); start_call(10,S2); start_call(12,S3)` yields
the three frames with line numbers `[10, 12, S3.line_number]`. -/
theorem start_call_overwrites_parent_line (cs : Callstack) (parent_line : Nat)
    (site : CallSiteId) (hp : parent_line ≠ 0) (hne : cs.calls ≠ []) :
    (cs.start_call parent_line site).calls =
      cs.calls.dropLast ++
        [{ cs.calls.getLast hne with line_number := parent_line }, site] ∧
    ∀ s1 s2 s3 : CallSiteId,
      (((Callstack.new.start_call 0 s1).start_call 10 s2).start_call 12 s3).calls =
        [{ s1 with line_number := 10 }, { s2 with line_number := 12 }, s3] := by
  constructor
  · unfold Callstack.start_call
    rw [if_pos hp, List.getLast?_eq_getLast_of_ne_nil hne]
    simp
  · intro s1 s2 s3
    rfl

/-- C6 witness at a concrete input. -/
theorem start_call_overwrites_parent_line_witness :
    ((Callstack.mk [⟨⟨"a", "af"⟩, 2⟩]).start_call 10 ⟨⟨"b", "bf"⟩, 4⟩).calls =
      [⟨⟨"a", "af"⟩, 10⟩, ⟨⟨"b", "bf"⟩, 4⟩] := by
  have h := (start_call_overwrites_parent_line (Callstack.mk [⟨⟨"a", "af"⟩, 2⟩])
    10 ⟨⟨"b", "bf"⟩, 4⟩ (by decide) (by simp)).1
  rw [h]
  rfl

/-- C7: freeing an address absent from the live malloc table removes no
entry and leaves `current_memory_usage` and `current_allocated_bytes`
untouched (and, being a total function, raises no error); on a freshly
created tracker `free_allocation 99` is the identity. -/
theorem free_unknown_address_noop (t : AllocationTracker) (address : Nat)
    (h : lookupAssoc t.current_allocations address = none) :
    ((t.free_allocation address).current_allocations = t.current_allocations ∧
     (t.free_allocation address).current_memory_usage = t.current_memory_usage ∧
     (t.free_allocation address).current_allocated_bytes =
       t.current_allocated_bytes) ∧
    ∀ p : String,
      (AllocationTracker.new p).free_allocation 99 = AllocationTracker.new p := by
  constructor
  · obtain ⟨hca, _, _, hcm, hcb, _⟩ := check_if_new_peak_fields t
    have hrm : removeAssoc t.check_if_new_peak.current_allocations address =
        (none, t.check_if_new_peak.current_allocations) := by
      rw [hca]
      exact lookupAssoc_none_removeAssoc _ _ h
    simp only [AllocationTracker.free_allocation, hrm]
    exact ⟨hca, hcm, hcb⟩
  · intro p
    rfl

/-- C7 witness at a concrete input. -/
theorem free_unknown_address_noop_witness :
    lookupAssoc ((AllocationTracker.new "/tmp").add_allocation 1 100
        Callstack.new).current_allocations 99 = none ∧
    (((AllocationTracker.new "/tmp").add_allocation 1 100
        Callstack.new).free_allocation 99).current_allocated_bytes =
      ((AllocationTracker.new "/tmp").add_allocation 1 100
        Callstack.new).current_allocated_bytes :=
  ⟨by decide,
   (free_unknown_address_noop
     ((AllocationTracker.new "/tmp").add_allocation 1 100 Callstack.new)
     99 (by decide)).1.2.2⟩

/-- C9: `free_allocation` runs the peak check before the address
lookup, so freeing an untracked address when `current_total >
peak_total` still copies the current totals into the peak fields while
every other field stays unchanged. -/
theorem free_unknown_address_updates_peak (t : AllocationTracker) (address : Nat)
    (h : lookupAssoc t.current_allocations address = none)
    (hpeak : t.current_allocated_bytes > t.peak_allocated_bytes) :
    t.free_allocation address =
      { t with peak_allocated_bytes := t.current_allocated_bytes,
               peak_memory_usage := t.current_memory_usage } := by
  have hchk : t.check_if_new_peak =
      { t with peak_allocated_bytes := t.current_allocated_bytes,
               peak_memory_usage := t.current_memory_usage } := by
    unfold AllocationTracker.check_if_new_peak
    rw [if_pos hpeak]
  simp only [AllocationTracker.free_allocation, hchk,
    lookupAssoc_none_removeAssoc _ _ h]

/-- C9 witness at a concrete input. -/
theorem free_unknown_address_updates_peak_witness :
    lookupAssoc ((AllocationTracker.new "/tmp").add_allocation 1 100
        Callstack.new).current_allocations 99 = none ∧
    ((AllocationTracker.new "/tmp").add_allocation 1 100
        Callstack.new).current_allocated_bytes >
      ((AllocationTracker.new "/tmp").add_allocation 1 100
        Callstack.new).peak_allocated_bytes ∧
    (((AllocationTracker.new "/tmp").add_allocation 1 100
        Callstack.new).free_allocation 99).peak_allocated_bytes = 100 := by
  refine ⟨by decide, by decide, ?_⟩
  rw [free_unknown_address_updates_peak
    ((AllocationTracker.new "/tmp").add_allocation 1 100 Callstack.new)
    99 (by decide) (by decide)]
  decide

theorem Allocation.new_callstack_id (cid size : Nat) :
    (Allocation.new cid size).callstack_id = cid := rfl

theorem free_allocation_found_fields (v : AllocationTracker) (address : Nat)
    (alloc : Allocation)
    (hfst : (removeAssoc v.current_allocations address).1 = some alloc) :
    (v.free_allocation address).current_allocated_bytes =
      v.current_allocated_bytes - alloc.size ∧
    (v.free_allocation address).current_memory_usage =
      v.current_memory_usage.set alloc.callstack_id
        (v.current_memory_usage.getD alloc.callstack_id 0 - alloc.size) := by
  obtain ⟨hca, _, _, hcm, hcb, _⟩ := check_if_new_peak_fields v
  have hf' : (removeAssoc v.check_if_new_peak.current_allocations address).1 =
      some alloc := by
    rw [hca]
    exact hfst
  simp only [AllocationTracker.free_allocation, hf',
    AllocationTracker.remove_memory_usage]
  exact ⟨by rw [hcb], by rw [hcm]⟩

theorem getD_append_singleton_zero (l : List Nat) :
    (l ++ [0]).getD l.length 0 = l.getD l.length 0 := by
  simp [List.getD, List.getElem?_append_right (Nat.le_refl l.length)]

/-- C3: `add_allocation(a, s, cs)` followed by `free_allocation(a)`
restores `current_allocated_bytes` exactly and restores `current[id]`
(for the interned id) to its prior value — for every size, including
the lossily compressed ones — because both the addition and the
subtraction use the decoded size; the only residue in the totals vector
is a possible fresh 0 entry at the end when the stack was newly
interned. -/
theorem add_then_free_restores_current (t : AllocationTracker)
    (address size : Nat) (cs : Callstack) (hwf : InternerWF t) :
    ((t.add_allocation address size cs).free_allocation
        address).current_allocated_bytes = t.current_allocated_bytes ∧
    ((t.add_allocation address size cs).free_allocation
          address).current_memory_usage.getD (t.get_callstack_id cs).1 0 =
      t.current_memory_usage.getD (t.get_callstack_id cs).1 0 ∧
    (((t.add_allocation address size cs).free_allocation
          address).current_memory_usage = t.current_memory_usage ∨
     ((t.add_allocation address size cs).free_allocation
          address).current_memory_usage = t.current_memory_usage ++ [0]) := by
  have hca : (t.add_allocation address size cs).current_allocations =
      insertAssoc (t.get_callstack_id cs).2.current_allocations address
        (Allocation.new (t.get_callstack_id cs).1 size) := rfl
  have hcb : (t.add_allocation address size cs).current_allocated_bytes =
      (t.get_callstack_id cs).2.current_allocated_bytes +
        (Allocation.new (t.get_callstack_id cs).1 size).size := rfl
  have hcm : (t.add_allocation address size cs).current_memory_usage =
      (t.get_callstack_id cs).2.current_memory_usage.set
        (t.get_callstack_id cs).1
        ((t.get_callstack_id cs).2.current_memory_usage.getD
          (t.get_callstack_id cs).1 0 +
          (Allocation.new (t.get_callstack_id cs).1 size).size) := rfl
  have hfst : (removeAssoc (t.add_allocation address size cs).current_allocations
      address).1 = some (Allocation.new (t.get_callstack_id cs).1 size) := by
    rw [hca]
    exact removeAssoc_insertAssoc_fst _ _ _
  obtain ⟨hb, hm⟩ := free_allocation_found_fields _ address _ hfst
  rw [hcb, Nat.add_sub_cancel] at hb
  rw [hcm, Allocation.new_callstack_id, getD_set_add_sub] at hm
  rcases get_callstack_id_spec t cs with ⟨id, hf, hg⟩ | ⟨hf, hg⟩
  · simp only [hg] at hb hm ⊢
    exact ⟨hb, by rw [hm], Or.inl hm⟩
  · simp only [hg] at hb hm ⊢
    refine ⟨hb, ?_, Or.inr hm⟩
    rw [hm, hwf.1]
    exact getD_append_singleton_zero t.current_memory_usage

/-- C3 witness at a concrete input (the spec's 3 GiB scenario). -/
theorem add_then_free_restores_current_witness :
    InternerWF (AllocationTracker.new "/tmp") ∧
    (((AllocationTracker.new "/tmp").add_allocation 1 (3 * 2 ^ 30)
        Callstack.new).free_allocation 1).current_allocated_bytes =
      (AllocationTracker.new "/tmp").current_allocated_bytes :=
  ⟨⟨rfl, by intro p hp; cases hp⟩,
   (add_then_free_restores_current (AllocationTracker.new "/tmp") 1 (3 * 2 ^ 30)
     Callstack.new ⟨rfl, by intro p hp; cases hp⟩).1⟩

/-! ### Per-operation field lemmas for the trace invariants (C1, C2) -/

theorem check_if_new_peak_peak_vec (t : AllocationTracker) :
    (t.check_if_new_peak).peak_memory_usage = t.peak_memory_usage ∨
    (t.check_if_new_peak).peak_memory_usage = t.current_memory_usage := by
  unfold AllocationTracker.check_if_new_peak
  split
  · right
    rfl
  · left
    rfl

theorem get_callstack_id_peak_fields (t : AllocationTracker) (cs : Callstack) :
    (t.get_callstack_id cs).2.peak_memory_usage = t.peak_memory_usage ∧
    (t.get_callstack_id cs).2.peak_allocated_bytes = t.peak_allocated_bytes ∧
    (t.get_callstack_id cs).2.current_allocated_bytes =
      t.current_allocated_bytes := by
  rcases get_callstack_id_spec t cs with ⟨id, _, hg⟩ | ⟨_, hg⟩ <;>
    rw [hg] <;> exact ⟨rfl, rfl, rfl⟩

theorem add_allocation_fields_rfl (t : AllocationTracker) (a s : Nat)
    (cs : Callstack) :
    (t.add_allocation a s cs).interner = (t.get_callstack_id cs).2.interner ∧
    (t.add_allocation a s cs).peak_memory_usage =
      (t.get_callstack_id cs).2.peak_memory_usage ∧
    (t.add_allocation a s cs).peak_allocated_bytes =
      (t.get_callstack_id cs).2.peak_allocated_bytes ∧
    (t.add_allocation a s cs).current_allocated_bytes =
      (t.get_callstack_id cs).2.current_allocated_bytes +
        (Allocation.new (t.get_callstack_id cs).1 s).size ∧
    (t.add_allocation a s cs).current_memory_usage.length =
      (t.get_callstack_id cs).2.current_memory_usage.length := by
  refine ⟨rfl, rfl, rfl, rfl, ?_⟩
  show ((t.get_callstack_id cs).2.current_memory_usage.set _ _).length = _
  exact List.length_set _ _ _

theorem add_anon_mmap_fields_rfl (t : AllocationTracker) (a s : Nat)
    (cs : Callstack) :
    (t.add_anon_mmap a s cs).interner = (t.get_callstack_id cs).2.interner ∧
    (t.add_anon_mmap a s cs).peak_memory_usage =
      (t.get_callstack_id cs).2.peak_memory_usage ∧
    (t.add_anon_mmap a s cs).peak_allocated_bytes =
      (t.get_callstack_id cs).2.peak_allocated_bytes ∧
    (t.add_anon_mmap a s cs).current_allocated_bytes =
      (t.get_callstack_id cs).2.current_allocated_bytes + s ∧
    (t.add_anon_mmap a s cs).current_memory_usage.length =
      (t.get_callstack_id cs).2.current_memory_usage.length := by
  refine ⟨rfl, rfl, rfl, rfl, ?_⟩
  show ((t.get_callstack_id cs).2.current_memory_usage.set _ _).length = _
  exact List.length_set _ _ _

theorem foldl_remove_memory_usage_fields (l : List (Nat × Nat)) :
    ∀ acc : AllocationTracker,
      (l.foldl (fun a p => a.remove_memory_usage p.1 p.2) acc).interner =
        acc.interner ∧
      (l.foldl (fun a p => a.remove_memory_usage p.1 p.2) acc).peak_memory_usage =
        acc.peak_memory_usage ∧
      (l.foldl (fun a p => a.remove_memory_usage p.1 p.2)
        acc).peak_allocated_bytes = acc.peak_allocated_bytes ∧
      (l.foldl (fun a p => a.remove_memory_usage p.1 p.2)
        acc).current_memory_usage.length = acc.current_memory_usage.length ∧
      (l.foldl (fun a p => a.remove_memory_usage p.1 p.2)
        acc).current_allocated_bytes ≤ acc.current_allocated_bytes := by
  induction l with
  | nil => exact fun acc => ⟨rfl, rfl, rfl, rfl, Nat.le_refl _⟩
  | cons hd tl ih =>
      intro acc
      obtain ⟨h1, h2, h3, h4, h5⟩ := ih (acc.remove_memory_usage hd.1 hd.2)
      rw [List.foldl_cons]
      refine ⟨h1, h2, h3, ?_, ?_⟩
      · rw [h4]
        exact List.length_set _ _ _
      · exact Nat.le_trans h5 (Nat.sub_le _ _)

theorem free_allocation_inv_fields (t : AllocationTracker) (a : Nat) :
    (t.free_allocation a).interner = t.interner ∧
    (t.free_allocation a).current_memory_usage.length =
      t.current_memory_usage.length ∧
    (t.free_allocation a).current_allocated_bytes ≤
      t.current_allocated_bytes ∧
    (t.free_allocation a).peak_allocated_bytes =
      max t.peak_allocated_bytes t.current_allocated_bytes ∧
    ((t.free_allocation a).peak_memory_usage = t.peak_memory_usage ∨
     (t.free_allocation a).peak_memory_usage = t.current_memory_usage) := by
  obtain ⟨hca, hmm, hint, hcm, hcb, hpb⟩ := check_if_new_peak_fields t
  have hpv := check_if_new_peak_peak_vec t
  cases hr : (removeAssoc t.check_if_new_peak.current_allocations a).1 with
  | some removed =>
      simp only [AllocationTracker.free_allocation, hr,
        AllocationTracker.remove_memory_usage]
      refine ⟨hint, ?_, ?_, hpb, hpv⟩
      · rw [List.length_set]
        rw [hcm]
      · rw [hcb]
        exact Nat.sub_le _ _
  | none =>
      simp only [AllocationTracker.free_allocation, hr]
      exact ⟨hint, by rw [hcm], by rw [hcb], hpb, hpv⟩

theorem free_anon_mmap_inv_fields (t : AllocationTracker) (a s : Nat) :
    (t.free_anon_mmap a s).interner = t.interner ∧
    (t.free_anon_mmap a s).current_memory_usage.length =
      t.current_memory_usage.length ∧
    (t.free_anon_mmap a s).current_allocated_bytes ≤
      t.current_allocated_bytes ∧
    (t.free_anon_mmap a s).peak_allocated_bytes =
      max t.peak_allocated_bytes t.current_allocated_bytes ∧
    ((t.free_anon_mmap a s).peak_memory_usage = t.peak_memory_usage ∨
     (t.free_anon_mmap a s).peak_memory_usage = t.current_memory_usage) := by
  obtain ⟨hca, hmm, hint, hcm, hcb, hpb⟩ := check_if_new_peak_fields t
  have hpv := check_if_new_peak_peak_vec t
  obtain ⟨g1, g2, g3, g4, g5⟩ := foldl_remove_memory_usage_fields
    (t.check_if_new_peak.current_anon_mmaps.remove a s).1
    { t.check_if_new_peak with
      current_anon_mmaps := (t.check_if_new_peak.current_anon_mmaps.remove a s).2 }
  have happ : t.free_anon_mmap a s =
      (t.check_if_new_peak.current_anon_mmaps.remove a s).1.foldl
        (fun acc p => acc.remove_memory_usage p.1 p.2)
        { t.check_if_new_peak with
          current_anon_mmaps :=
            (t.check_if_new_peak.current_anon_mmaps.remove a s).2 } := rfl
  rw [happ, g1, g2, g3, g4]
  exact ⟨hint, by rw [hcm], Nat.le_trans g5 (Nat.le_of_eq hcb), hpb, hpv⟩

theorem combine_callstacks_fst (t : AllocationTracker) (p : Bool) :
    (t.combine_callstacks p).1 = t.check_if_new_peak := rfl

/-- One lock-protected operation preserves "current's length is the
interner's next id, peak's length lags current's". -/
theorem trackerInv_step (t : AllocationTracker) (op : TrackerOp)
    (h1 : t.interner.max_id = t.current_memory_usage.length)
    (h2 : t.peak_memory_usage.length ≤ t.current_memory_usage.length) :
    (op.apply t).interner.max_id = (op.apply t).current_memory_usage.length ∧
    (op.apply t).peak_memory_usage.length ≤
      (op.apply t).current_memory_usage.length := by
  cases op with
  | addAlloc a s cs =>
      obtain ⟨hint, hpv, _, _, hlen⟩ := add_allocation_fields_rfl t a s cs
      simp only [TrackerOp.apply]
      rw [hint, hpv, hlen]
      rcases get_callstack_id_spec t cs with ⟨id, _, hg⟩ | ⟨_, hg⟩ <;> rw [hg]
      · exact ⟨h1, h2⟩
      · constructor
        · show t.interner.max_id + 1 = (t.current_memory_usage ++ [0]).length
          rw [List.length_append, h1]
          rfl
        · show t.peak_memory_usage.length ≤
            (t.current_memory_usage ++ [0]).length
          rw [List.length_append]
          exact Nat.le_trans h2 (Nat.le_add_right _ _)
  | freeAlloc a =>
      obtain ⟨f1, f2, _, _, f5⟩ := free_allocation_inv_fields t a
      simp only [TrackerOp.apply]
      rw [f1, f2]
      refine ⟨h1, ?_⟩
      rcases f5 with hp | hp <;> rw [hp]
      exact h2
  | addAnonMmap a s cs =>
      obtain ⟨hint, hpv, _, _, hlen⟩ := add_anon_mmap_fields_rfl t a s cs
      simp only [TrackerOp.apply]
      rw [hint, hpv, hlen]
      rcases get_callstack_id_spec t cs with ⟨id, _, hg⟩ | ⟨_, hg⟩ <;> rw [hg]
      · exact ⟨h1, h2⟩
      · constructor
        · show t.interner.max_id + 1 = (t.current_memory_usage ++ [0]).length
          rw [List.length_append, h1]
          rfl
        · show t.peak_memory_usage.length ≤
            (t.current_memory_usage ++ [0]).length
          rw [List.length_append]
          exact Nat.le_trans h2 (Nat.le_add_right _ _)
  | freeAnonMmap a s =>
      obtain ⟨f1, f2, _, _, f5⟩ := free_anon_mmap_inv_fields t a s
      simp only [TrackerOp.apply]
      rw [f1, f2]
      refine ⟨h1, ?_⟩
      rcases f5 with hp | hp <;> rw [hp]
      exact h2
  | combineCallstacks p =>
      obtain ⟨_, _, hint, hcm, _, _⟩ := check_if_new_peak_fields t
      have hpv := check_if_new_peak_peak_vec t
      simp only [TrackerOp.apply]
      rw [combine_callstacks_fst, hint, hcm]
      refine ⟨h1, ?_⟩
      rcases hpv with hp | hp <;> rw [hp]
      exact h2

theorem runOps_length_inv (ops : List TrackerOp) :
    ∀ t : AllocationTracker,
      t.interner.max_id = t.current_memory_usage.length →
      t.peak_memory_usage.length ≤ t.current_memory_usage.length →
      (runOps t ops).interner.max_id =
        (runOps t ops).current_memory_usage.length ∧
      (runOps t ops).peak_memory_usage.length ≤
        (runOps t ops).current_memory_usage.length := by
  induction ops with
  | nil => exact fun t h1 h2 => ⟨h1, h2⟩
  | cons op rest ih =>
      intro t h1 h2
      obtain ⟨g1, g2⟩ := trackerInv_step t op h1 h2
      exact ih (op.apply t) g1 g2

/-- C1 counterexample: after a single `add_allocation` from the initial
state — a reachable state — `current_memory_usage` has length 1 while
`peak_memory_usage` still has length 0, because `get_callstack_id`
extends only `current` on a fresh id. -/
theorem current_peak_length_counterexample :
    (runOps (AllocationTracker.new "/tmp")
        [TrackerOp.addAlloc 1 100 Callstack.new]).current_memory_usage.length
      = 1 ∧
    (runOps (AllocationTracker.new "/tmp")
        [TrackerOp.addAlloc 1 100 Callstack.new]).peak_memory_usage.length
      = 0 ∧
    ¬ ((runOps (AllocationTracker.new "/tmp")
          [TrackerOp.addAlloc 1 100 Callstack.new]).current_memory_usage.length
        = (runOps (AllocationTracker.new "/tmp")
          [TrackerOp.addAlloc 1 100
            Callstack.new]).peak_memory_usage.length) := by
  decide

/-- C1 (amended): at every reachable state, `current_memory_usage`'s
length equals the number of distinct callstacks ever interned (the next
unused id), while `peak_memory_usage`'s length only lags it (it catches
up when a peak is recorded); interning a new stack extends `current`
alone with a 0 entry and leaves `peak` untouched. -/
theorem current_length_equals_interned (path : String) (ops : List TrackerOp) :
    (runOps (AllocationTracker.new path) ops).interner.max_id =
      (runOps (AllocationTracker.new path) ops).current_memory_usage.length ∧
    (runOps (AllocationTracker.new path) ops).peak_memory_usage.length ≤
      (runOps (AllocationTracker.new path) ops).current_memory_usage.length ∧
    ∀ u : AllocationTracker, ∀ cs : Callstack,
      findCallstackId u.interner.callstack_to_id cs = none →
      (u.get_callstack_id cs).2.current_memory_usage =
        u.current_memory_usage ++ [0] ∧
      (u.get_callstack_id cs).2.peak_memory_usage = u.peak_memory_usage := by
  obtain ⟨g1, g2⟩ := runOps_length_inv ops (AllocationTracker.new path) rfl
    (Nat.le_refl _)
  refine ⟨g1, g2, ?_⟩
  intro u cs hf
  rcases get_callstack_id_spec u cs with ⟨id, hf', _⟩ | ⟨_, hg⟩
  · rw [hf'] at hf
    cases hf
  · rw [hg]
    exact ⟨rfl, rfl⟩

/-- C1 (amended) witness at a concrete input. -/
theorem current_length_equals_interned_witness :
    findCallstackId (AllocationTracker.new "/x").interner.callstack_to_id
      Callstack.new = none ∧
    ((AllocationTracker.new "/x").get_callstack_id
        Callstack.new).2.current_memory_usage = [0] :=
  ⟨rfl,
   by
    rw [((current_length_equals_interned "/x" []).2.2
      (AllocationTracker.new "/x") Callstack.new rfl).1]
    rfl⟩

/-- Running one more operation: `runOps` over an appended trace. -/
theorem runOps_append (t : AllocationTracker) (l1 l2 : List TrackerOp) :
    runOps t (l1 ++ l2) = runOps (runOps t l1) l2 := by
  induction l1 generalizing t with
  | nil => rfl
  | cons op rest ih => exact ih (op.apply t)

/-- Each operation either leaves `peak_allocated_bytes` alone while not
decreasing `current_allocated_bytes` (the adds), or sets it to
`max peak current` while not increasing `current` (the frees and the
report). -/
theorem step_peak_cases (t : AllocationTracker) (op : TrackerOp) :
    ((op.apply t).peak_allocated_bytes = t.peak_allocated_bytes ∧
     t.current_allocated_bytes ≤ (op.apply t).current_allocated_bytes) ∨
    ((op.apply t).peak_allocated_bytes =
       max t.peak_allocated_bytes t.current_allocated_bytes ∧
     (op.apply t).current_allocated_bytes ≤ t.current_allocated_bytes) := by
  cases op with
  | addAlloc a s cs =>
      left
      obtain ⟨_, _, hpb, hcb, _⟩ := add_allocation_fields_rfl t a s cs
      obtain ⟨_, hgp, hgc⟩ := get_callstack_id_peak_fields t cs
      simp only [TrackerOp.apply]
      rw [hpb, hcb, hgp, hgc]
      exact ⟨rfl, Nat.le_add_right _ _⟩
  | freeAlloc a =>
      right
      obtain ⟨_, _, f3, f4, _⟩ := free_allocation_inv_fields t a
      exact ⟨f4, f3⟩
  | addAnonMmap a s cs =>
      left
      obtain ⟨_, _, hpb, hcb, _⟩ := add_anon_mmap_fields_rfl t a s cs
      obtain ⟨_, hgp, hgc⟩ := get_callstack_id_peak_fields t cs
      simp only [TrackerOp.apply]
      rw [hpb, hcb, hgp, hgc]
      exact ⟨rfl, Nat.le_add_right _ _⟩
  | freeAnonMmap a s =>
      right
      obtain ⟨_, _, f3, f4, _⟩ := free_anon_mmap_inv_fields t a s
      exact ⟨f4, f3⟩
  | combineCallstacks p =>
      right
      obtain ⟨_, _, _, _, hcb, hpb⟩ := check_if_new_peak_fields t
      exact ⟨hpb, Nat.le_of_eq hcb⟩

/-- The starting value of `current_allocated_bytes` never exceeds the
running maximum of the history. -/
theorem self_le_foldr_totalsHistory (t : AllocationTracker)
    (ops : List TrackerOp) :
    t.current_allocated_bytes ≤ (totalsHistory t ops).foldr max 0 := by
  cases ops with
  | nil => exact Nat.le_max_left _ _
  | cons op rest => exact Nat.le_max_left _ _

/-- Invariant: at every reachable point, `max peak current` equals the
running maximum of `current_allocated_bytes` over the whole history. -/
theorem run_max_totals (ops : List TrackerOp) :
    ∀ t : AllocationTracker,
      max (runOps t ops).peak_allocated_bytes
          (runOps t ops).current_allocated_bytes =
        max t.peak_allocated_bytes ((totalsHistory t ops).foldr max 0) := by
  induction ops with
  | nil =>
      intro t
      show max t.peak_allocated_bytes t.current_allocated_bytes =
        max t.peak_allocated_bytes (max t.current_allocated_bytes 0)
      rw [Nat.max_zero]
  | cons op rest ih =>
      intro t
      show max (runOps (op.apply t) rest).peak_allocated_bytes
          (runOps (op.apply t) rest).current_allocated_bytes =
        max t.peak_allocated_bytes
          (max t.current_allocated_bytes
            ((totalsHistory (op.apply t) rest).foldr max 0))
      rw [ih (op.apply t)]
      have hhead := self_le_foldr_totalsHistory (op.apply t) rest
      rcases step_peak_cases t op with ⟨hp, hc⟩ | ⟨hp, hc⟩
      · rw [hp, Nat.max_eq_right (Nat.le_trans hc hhead)]
      · rw [hp, Nat.max_assoc]

/-- C2: for every trace of lock-protected operations, the peak check
performed just before each size-decreasing event (`free_allocation`,
`free_anon_mmap`) and just before any report (`combine_callstacks`)
maintains `peak_total = max over the trace of current_total`: after the
report the equality holds exactly, and each size-decreasing or
reporting operation sets `peak_total` to `max peak_total current_total`
just before any decrement. -/
theorem peak_total_is_running_max (path : String) (ops : List TrackerOp)
    (p : Bool) :
    (runOps (AllocationTracker.new path)
        (ops ++ [TrackerOp.combineCallstacks p])).peak_allocated_bytes =
      (totalsHistory (AllocationTracker.new path) ops).foldr max 0 ∧
    (∀ u : AllocationTracker, ∀ a : Nat,
      (u.free_allocation a).peak_allocated_bytes =
        max u.peak_allocated_bytes u.current_allocated_bytes) ∧
    (∀ u : AllocationTracker, ∀ a s : Nat,
      (u.free_anon_mmap a s).peak_allocated_bytes =
        max u.peak_allocated_bytes u.current_allocated_bytes) ∧
    (∀ u : AllocationTracker, ∀ b : Bool,
      ((u.combine_callstacks b).1).peak_allocated_bytes =
        max u.peak_allocated_bytes u.current_allocated_bytes) := by
  refine ⟨?_, fun u a => (free_allocation_inv_fields u a).2.2.2.1,
    fun u a s => (free_anon_mmap_inv_fields u a s).2.2.2.1,
    fun u b => (check_if_new_peak_fields u).2.2.2.2.2⟩
  rw [runOps_append]
  have hc : ((TrackerOp.combineCallstacks p).apply
      (runOps (AllocationTracker.new path) ops)).peak_allocated_bytes =
      max (runOps (AllocationTracker.new path) ops).peak_allocated_bytes
        (runOps (AllocationTracker.new path) ops).current_allocated_bytes :=
    (check_if_new_peak_fields _).2.2.2.2.2
  show ((TrackerOp.combineCallstacks p).apply
      (runOps (AllocationTracker.new path) ops)).peak_allocated_bytes = _
  rw [hc, run_max_totals ops (AllocationTracker.new path)]
  have h0 : (AllocationTracker.new path).peak_allocated_bytes = 0 := rfl
  rw [h0, Nat.zero_max]

/-! ### C8: the shape of the report lines -/

theorem optionMapList_mem {α β : Type} (f : α → Option β) :
    ∀ (l : List α) (res : List β), optionMapList f l = some res →
      ∀ y ∈ res, ∃ x ∈ l, f x = some y := by
  intro l
  induction l with
  | nil =>
      intro res h y hy
      cases h
      cases hy
  | cons x xs ih =>
      intro res h y hy
      unfold optionMapList at h
      cases hfx : f x with
      | none => rw [hfx] at h; cases h
      | some z =>
          rw [hfx] at h
          cases hrest : optionMapList f xs with
          | none => rw [hrest] at h; cases h
          | some zs =>
              rw [hrest] at h
              cases h
              cases hy with
              | head => exact ⟨x, List.mem_cons_self x xs, hfx⟩
              | tail _ hy' =>
                  obtain ⟨x', hx', hfx'⟩ := ih zs hrest y hy'
                  exact ⟨x', List.mem_cons_of_mem x hx', hfx'⟩

/-- C8: every line `to_lines` produces is `<stack> <bytes>`, where
`<stack>` renders the interned callstack for the pair's id via
`as_string` — plain frames `<filename>:<line> (<function>)` joined by
`;` from outermost to innermost, with the `;TB@@<filename>:<line>@@TB`
sentinel appended per frame in post-processable mode — and a callstack
with no frames renders as the single literal `[No Python stack]`. -/
theorem to_lines_line_shape (t : AllocationTracker) (peak pp : Bool)
    (lines : List String) (line : String)
    (hsome : (t.to_lines peak pp).2 = some lines) (hmem : line ∈ lines) :
    (∃ id size cs,
        (id, size) ∈ (t.combine_callstacks peak).2 ∧
        (t.combine_callstacks peak).1.interner.reverse_lookup id = some cs ∧
        line = cs.as_string pp ++ " " ++ toString size) ∧
    (∀ cs : Callstack, cs.calls = [] →
      cs.as_string pp = "[No Python stack]") ∧
    (∀ cs : Callstack, cs.calls ≠ [] →
      cs.as_string pp = String.intercalate ";" (cs.calls.map (fun f =>
        if pp then
          f.function.filename ++ ":" ++ toString f.line_number ++ " (" ++
            f.function.function_name ++ ");TB@@" ++ f.function.filename ++
            ":" ++ toString f.line_number ++ "@@TB"
        else
          f.function.filename ++ ":" ++ toString f.line_number ++ " (" ++
            f.function.function_name ++ ")"))) := by
  refine ⟨?_, ?_, ?_⟩
  · obtain ⟨x, hx, hfx⟩ := optionMapList_mem _ _ lines hsome line hmem
    cases hlook : (t.combine_callstacks peak).1.interner.reverse_lookup x.1 with
    | none => rw [hlook] at hfx; cases hfx
    | some cs =>
        rw [hlook] at hfx
        refine ⟨x.1, x.2, cs, hx, hlook, ?_⟩
        cases hfx
        rfl
  · intro cs hcs
    unfold Callstack.as_string
    rw [hcs]
    rfl
  · intro cs hcs
    unfold Callstack.as_string
    rw [if_neg (by simpa [List.isEmpty_iff] using hcs)]
    rfl

/-- C8 witness: the spec's empty-stack scenario — `add_alloc(7, 42,
empty_stack)` then `to_lines(false, false)` yields exactly
`"[No Python stack] 42"`. -/
theorem to_lines_line_shape_witness :
    (((AllocationTracker.new "/tmp").add_allocation 7 42
        Callstack.new).to_lines false false).2 =
      some ["[No Python stack] 42"] ∧
    "[No Python stack] 42" ∈ ["[No Python stack] 42"] ∧
    (∀ cs : Callstack, cs.calls = [] →
      cs.as_string false = "[No Python stack]") :=
  ⟨by decide, by decide,
   (to_lines_line_shape ((AllocationTracker.new "/tmp").add_allocation 7 42
       Callstack.new) false false ["[No Python stack] 42"]
     "[No Python stack] 42" (by decide) (by decide)).2.1⟩

end MemoryTracking
